import Mathlib

/-
Shallow embedding of the encrypted contract deduplication and retrieval
store of the jurisai backend.

Sources embedded here:
- backend/utils/encryption.js (EncryptionService, ContractSignatureService)
- backend/models/contractSignature.models.js (schema, incrementAccess,
  getDecryptedAnalysis, getDecryptedContent, the unique index on fileHash)
- backend/routes/smartContractAnalysis.js (the analyze and check-duplicate
  handlers)

Modelling conventions:
- A byte is a Nat below 256; ValidBytes states every element of a list is a
  byte.  Hex and base64 transport encodings are implemented concretely
  (Node Buffer hex and base64 on canonical outputs) and proved to round
  trip.
- AES-256-GCM is the external crypto primitive.  Its counter-mode
  structure is kept: the ciphertext is the plaintext XORed with a
  keystream that depends only on (key, iv), and the authentication tag is
  a 16-byte function of (key, iv, aad, ciphertext).  The block cipher and
  GHASH themselves are parameters (an AeadCipher), since the repository
  calls into the Node crypto library for them.
- JSON.stringify / JSON.parse are the external serialization collaborator,
  modelled as a Serializer: an encoding to bytes together with its partial
  inverse and the library contract that parsing a stringified value gives
  the value back.
- The MongoDB collection is a list of records.  The schema declares
  fileHash with unique true, so an insert conflicts whenever any existing
  document, of any status, holds the same fileHash.  Document save after
  an in-memory mutation writes the absolute field values computed from the
  loaded snapshot.
-/

namespace JurisAI

/-- A list of valid byte values (each below 256). -/
def ValidBytes (l : List Nat) : Prop := ∀ b ∈ l, b < 256

instance : DecidablePred ValidBytes :=
  fun l => List.decidableBAll (fun b => b < 256) l

/-! ### Hex transport encoding (Node Buffer toString hex, lowercase) -/

/-- Lower-case hex digit for a value below 16. -/
def hexDigit (n : Nat) : Char :=
  if n < 10 then Char.ofNat (48 + n) else Char.ofNat (87 + n)

/-- Value of a lower-case hex digit. -/
def hexVal (c : Char) : Nat :=
  if c.toNat ≤ 57 then c.toNat - 48 else c.toNat - 87

/-- Hex encoding of a byte list, two digits per byte. -/
def hexEncodeChars : List Nat → List Char
  | [] => []
  | b :: bs => hexDigit (b / 16) :: hexDigit (b % 16) :: hexEncodeChars bs

/-- Hex decoding, consuming digit pairs. -/
def hexDecodeChars : List Char → List Nat
  | c1 :: c2 :: cs => (hexVal c1 * 16 + hexVal c2) :: hexDecodeChars cs
  | _ => []

theorem hexVal_hexDigit : ∀ n, n < 16 → hexVal (hexDigit n) = n := by decide

theorem hexDecode_hexEncode : ∀ l, ValidBytes l → hexDecodeChars (hexEncodeChars l) = l := by
  intro l
  induction l with
  | nil => intro _; rfl
  | cons b bs ih =>
    intro hv
    have hb : b < 256 := hv b (List.mem_cons_self b bs)
    have h1 : b / 16 < 16 := by omega
    have h2 : b % 16 < 16 := by omega
    have hrest := ih (fun x hx => hv x (List.mem_cons_of_mem _ hx))
    show (hexVal (hexDigit (b / 16)) * 16 + hexVal (hexDigit (b % 16)))
        :: hexDecodeChars (hexEncodeChars bs) = b :: bs
    rw [hexVal_hexDigit _ h1, hexVal_hexDigit _ h2, hrest]
    have hrec : b / 16 * 16 + b % 16 = b := by omega
    rw [hrec]

/-! ### Base64 transport encoding (Node Buffer toString base64) -/

/-- The base64 padding character. -/
def padChar : Char := Char.ofNat 61

/-- Base64 alphabet character for a sextet value below 64. -/
def sixChar (n : Nat) : Char :=
  if n < 26 then Char.ofNat (65 + n)
  else if n < 52 then Char.ofNat (71 + n)
  else if n < 62 then Char.ofNat (n - 4)
  else if n = 62 then Char.ofNat 43
  else Char.ofNat 47

/-- Value of a base64 alphabet character. -/
def sixVal (c : Char) : Nat :=
  if 65 ≤ c.toNat ∧ c.toNat ≤ 90 then c.toNat - 65
  else if 97 ≤ c.toNat ∧ c.toNat ≤ 122 then c.toNat - 71
  else if 48 ≤ c.toNat ∧ c.toNat ≤ 57 then c.toNat + 4
  else if c.toNat = 43 then 62
  else 63

theorem sixVal_sixChar : ∀ n, n < 64 → sixVal (sixChar n) = n := by decide

theorem sixChar_ne_pad : ∀ n, n < 64 → (sixChar n != padChar) = true := by decide

/-- Base64 encoding of a byte list, chunked three bytes to four characters,
with canonical padding. -/
def b64encodeChars : List Nat → List Char
  | [] => []
  | [b1] => [sixChar (b1 / 4), sixChar (b1 % 4 * 16), padChar, padChar]
  | [b1, b2] => [sixChar (b1 / 4), sixChar (b1 % 4 * 16 + b2 / 16), sixChar (b2 % 16 * 4), padChar]
  | b1 :: b2 :: b3 :: bs =>
      sixChar (b1 / 4) :: sixChar (b1 % 4 * 16 + b2 / 16) :: sixChar (b2 % 16 * 4 + b3 / 64)
        :: sixChar (b3 % 64) :: b64encodeChars bs

/-- Regroup a list of sextet values into bytes. -/
def sextetsToBytes : List Nat → List Nat
  | v1 :: v2 :: v3 :: v4 :: vs =>
      (v1 * 4 + v2 / 16) :: (v2 % 16 * 16 + v3 / 4) :: (v3 % 4 * 64 + v4) :: sextetsToBytes vs
  | [v1, v2] => [v1 * 4 + v2 / 16]
  | [v1, v2, v3] => [v1 * 4 + v2 / 16, v2 % 16 * 16 + v3 / 4]
  | _ => []

/-- Base64 decoding: drop padding, map characters to sextets, regroup. -/
def b64decodeChars (cs : List Char) : List Nat :=
  sextetsToBytes ((cs.filter (fun c => c != padChar)).map sixVal)

/-- The sextet stream produced by encoding a byte list. -/
def sextetsOfBytes : List Nat → List Nat
  | [] => []
  | [b1] => [b1 / 4, b1 % 4 * 16]
  | [b1, b2] => [b1 / 4, b1 % 4 * 16 + b2 / 16, b2 % 16 * 4]
  | b1 :: b2 :: b3 :: bs =>
      b1 / 4 :: (b1 % 4 * 16 + b2 / 16) :: (b2 % 16 * 4 + b3 / 64) :: b3 % 64 :: sextetsOfBytes bs

theorem pad_filter_self : (padChar != padChar) = false := by decide

theorem filter_map_b64encode : ∀ l, ValidBytes l →
    ((b64encodeChars l).filter (fun c => c != padChar)).map sixVal = sextetsOfBytes l
  | [] => fun _ => rfl
  | [b1] => fun hv => by
    have hb1 : b1 < 256 := hv b1 (by simp)
    have e1 : b1 / 4 < 64 := by omega
    have e2 : b1 % 4 * 16 < 64 := by omega
    simp only [b64encodeChars, List.filter, sixChar_ne_pad _ e1, sixChar_ne_pad _ e2,
      pad_filter_self, List.map, sextetsOfBytes]
    rw [sixVal_sixChar _ e1, sixVal_sixChar _ e2]
  | [b1, b2] => fun hv => by
    have hb1 : b1 < 256 := hv b1 (by simp)
    have hb2 : b2 < 256 := hv b2 (by simp)
    have e1 : b1 / 4 < 64 := by omega
    have e2 : b1 % 4 * 16 + b2 / 16 < 64 := by omega
    have e3 : b2 % 16 * 4 < 64 := by omega
    simp only [b64encodeChars, List.filter, sixChar_ne_pad _ e1, sixChar_ne_pad _ e2,
      sixChar_ne_pad _ e3, pad_filter_self, List.map, sextetsOfBytes]
    rw [sixVal_sixChar _ e1, sixVal_sixChar _ e2, sixVal_sixChar _ e3]
  | b1 :: b2 :: b3 :: bs => fun hv => by
    have hb1 : b1 < 256 := hv b1 (by simp)
    have hb2 : b2 < 256 := hv b2 (by simp)
    have hb3 : b3 < 256 := hv b3 (by simp)
    have e1 : b1 / 4 < 64 := by omega
    have e2 : b1 % 4 * 16 + b2 / 16 < 64 := by omega
    have e3 : b2 % 16 * 4 + b3 / 64 < 64 := by omega
    have e4 : b3 % 64 < 64 := by omega
    have ih := filter_map_b64encode bs (fun x hx => hv x (by simp [hx]))
    show ((sixChar (b1 / 4) :: sixChar (b1 % 4 * 16 + b2 / 16) :: sixChar (b2 % 16 * 4 + b3 / 64)
        :: sixChar (b3 % 64) :: b64encodeChars bs).filter (fun c => c != padChar)).map sixVal
        = sextetsOfBytes (b1 :: b2 :: b3 :: bs)
    simp only [List.filter, sixChar_ne_pad _ e1, sixChar_ne_pad _ e2, sixChar_ne_pad _ e3,
      sixChar_ne_pad _ e4, List.map]
    rw [sixVal_sixChar _ e1, sixVal_sixChar _ e2, sixVal_sixChar _ e3, sixVal_sixChar _ e4, ih]
    rfl

theorem sextets_bytes_round : ∀ l, ValidBytes l → sextetsToBytes (sextetsOfBytes l) = l
  | [] => fun _ => rfl
  | [b1] => fun hv => by
    have hb1 : b1 < 256 := hv b1 (by simp)
    show [b1 / 4 * 4 + b1 % 4 * 16 / 16] = [b1]
    congr 1
    omega
  | [b1, b2] => fun hv => by
    have hb1 : b1 < 256 := hv b1 (by simp)
    have hb2 : b2 < 256 := hv b2 (by simp)
    show [b1 / 4 * 4 + (b1 % 4 * 16 + b2 / 16) / 16,
      (b1 % 4 * 16 + b2 / 16) % 16 * 16 + b2 % 16 * 4 / 4] = [b1, b2]
    congr 1
    · omega
    · congr 1
      omega
  | b1 :: b2 :: b3 :: bs => fun hv => by
    have hb1 : b1 < 256 := hv b1 (by simp)
    have hb2 : b2 < 256 := hv b2 (by simp)
    have hb3 : b3 < 256 := hv b3 (by simp)
    have ih := sextets_bytes_round bs (fun x hx => hv x (by simp [hx]))
    show (b1 / 4 * 4 + (b1 % 4 * 16 + b2 / 16) / 16)
        :: ((b1 % 4 * 16 + b2 / 16) % 16 * 16 + (b2 % 16 * 4 + b3 / 64) / 4)
        :: ((b2 % 16 * 4 + b3 / 64) % 4 * 64 + b3 % 64)
        :: sextetsToBytes (sextetsOfBytes bs) = b1 :: b2 :: b3 :: bs
    rw [ih]
    congr 1
    · omega
    congr 1
    · omega
    congr 1
    omega

/-- Decoding the canonical base64 encoding of a byte list gives the bytes back. -/
theorem b64decode_b64encode (l : List Nat) (hv : ValidBytes l) :
    b64decodeChars (b64encodeChars l) = l := by
  unfold b64decodeChars
  rw [filter_map_b64encode l hv, sextets_bytes_round l hv]

/-! ### XOR keystream lemmas -/

theorem validBytes_zipWith_xor : ∀ l1 l2, ValidBytes l1 → ValidBytes l2 →
    ValidBytes (List.zipWith (fun x y => x ^^^ y) l1 l2)
  | [], _ => fun _ _ => by intro b hb; simp at hb
  | _ :: _, [] => fun _ _ => by intro b hb; simp at hb
  | a :: l1, b :: l2 => fun h1 h2 => by
    intro x hx
    simp only [List.zipWith, List.mem_cons] at hx
    rcases hx with hx | hx
    · subst hx
      have ha : a < 256 := h1 a (by simp)
      have hb : b < 256 := h2 b (by simp)
      have ha2 : a < 2 ^ 8 := by omega
      have hb2 : b < 2 ^ 8 := by omega
      have := Nat.xor_lt_two_pow ha2 hb2
      omega
    · exact validBytes_zipWith_xor l1 l2 (fun y hy => h1 y (by simp [hy]))
        (fun y hy => h2 y (by simp [hy])) x hx

theorem zipWith_xor_cancel : ∀ (p k : List Nat), p.length ≤ k.length →
    List.zipWith (fun x y => x ^^^ y) (List.zipWith (fun x y => x ^^^ y) p k) k = p
  | [], _ => fun _ => by simp
  | _ :: _, [] => fun h => by simp at h
  | a :: p, b :: k => fun h => by
    simp only [List.zipWith]
    rw [zipWith_xor_cancel p k (by simpa using h)]
    congr 1
    rw [Nat.xor_assoc, Nat.xor_self, Nat.xor_zero]

/-! ### The AEAD primitive and the serialization collaborator

The repository calls into the Node crypto library for aes-256-gcm.  GCM is
counter mode with an authentication tag: the ciphertext is the plaintext
XORed against a keystream derived from (key, iv) only, and the tag is a
16-byte function of (key, iv, aad, ciphertext).  The block cipher and the
GHASH polynomial are abstracted as the fields of an AeadCipher. -/

structure AeadCipher where
  ks : List Nat → List Nat → Nat → List Nat
  tagOf : List Nat → List Nat → List Nat → List Nat → List Nat
  ks_len : ∀ k iv n, (ks k iv n).length = n
  ks_valid : ∀ k iv n, ValidBytes (ks k iv n)
  tag_len : ∀ k iv a c, (tagOf k iv a c).length = 16
  tag_valid : ∀ k iv a c, ValidBytes (tagOf k iv a c)

/-- JSON.stringify / JSON.parse, the external serialization collaborator:
an encoding of payloads to UTF-8 bytes, its partial inverse, and the
library contract that parsing a stringified value returns the value. -/
structure Serializer (A : Type) where
  ser : A → List Nat
  deser : List Nat → Option A
  ser_valid : ∀ a, ValidBytes (ser a)
  round : ∀ a, deser (ser a) = some a

/-- The fixed associated data label, the UTF-8 bytes of the string
contract-signature set by cipher.setAAD in encrypt and decrypt. -/
def aadBytes : List Nat :=
  [99, 111, 110, 116, 114, 97, 99, 116, 45, 115, 105, 103, 110, 97, 116, 117, 114, 101]

/-- Result of EncryptionService.encrypt: hex ciphertext and hex auth tag. -/
structure EncResult where
  encrypted : List Char
  tag : List Char
deriving DecidableEq

/-- Typed failures of the crypto wrappers (Encryption failed / Decryption
failed errors thrown by encrypt and decrypt). -/
inductive CryptoError where
  | encryptionFailed
  | decryptionFailed
deriving DecidableEq

/-- EncryptionService.encrypt: base64-decode key and iv, create an
aes-256-gcm cipher (which validates the 32-byte key and a nonempty iv),
set the fixed AAD, encrypt the serialized payload, and return hex
ciphertext plus hex tag.  Any failure is rethrown as an encryption
error. -/
def encrypt {A : Type} (C : AeadCipher) (S : Serializer A) (data : A)
    (key iv : List Char) : Except CryptoError EncResult :=
  if (b64decodeChars key).length ≠ 32 then .error .encryptionFailed
  else if (b64decodeChars iv).length = 0 then .error .encryptionFailed
  else
    .ok { encrypted := hexEncodeChars (List.zipWith (fun x y => x ^^^ y) (S.ser data)
            (C.ks (b64decodeChars key) (b64decodeChars iv) (S.ser data).length)),
          tag := hexEncodeChars (C.tagOf (b64decodeChars key) (b64decodeChars iv) aadBytes
            (List.zipWith (fun x y => x ^^^ y) (S.ser data)
              (C.ks (b64decodeChars key) (b64decodeChars iv) (S.ser data).length))) }

/-- EncryptionService.decrypt: base64-decode key and iv, hex-decode the
ciphertext and tag, recompute the authentication tag over the ciphertext
and compare it with the supplied tag (decipher.final), then parse the
plaintext.  Every failure — tag mismatch, malformed input, parse failure —
surfaces as a decryption error with no partial data. -/
def decrypt {A : Type} (C : AeadCipher) (S : Serializer A)
    (encryptedData key iv tag : List Char) : Except CryptoError A :=
  if (b64decodeChars key).length ≠ 32 then .error .decryptionFailed
  else if (b64decodeChars iv).length = 0 then .error .decryptionFailed
  else if hexDecodeChars tag ≠ C.tagOf (b64decodeChars key) (b64decodeChars iv) aadBytes
      (hexDecodeChars encryptedData) then .error .decryptionFailed
  else
    match S.deser (List.zipWith (fun x y => x ^^^ y) (hexDecodeChars encryptedData)
        (C.ks (b64decodeChars key) (b64decodeChars iv) (hexDecodeChars encryptedData).length)) with
    | some v => .ok v
    | none => .error .decryptionFailed

/-! ### Key generation and ContractSignatureService.createSignature

crypto.randomBytes is the secure random source; it is modelled by an
explicit entropy stream of bytes handed to the caller.  generateKey
consumes 32 bytes, generateIV consumes 16, each base64 encoded exactly as
in the source. -/

/-- EncryptionService.generateKey: 32 random bytes, base64 encoded. -/
def generateKey (entropy : List Nat) : List Char :=
  b64encodeChars (entropy.take 32)

/-- EncryptionService.generateIV: 16 random bytes, base64 encoded. -/
def generateIV (entropy : List Nat) : List Char :=
  b64encodeChars (entropy.take 16)

/-- The persisted signature bundle returned by createSignature. -/
structure SignatureData where
  key : List Char
  iv : List Char
  encryptedContent : List Char
  contentTag : List Char
  encryptedAnalysis : List Char
  analysisTag : List Char
deriving DecidableEq

/-- ContractSignatureService.createSignature: mint one fresh key and one
fresh iv from the entropy stream, then seal the contract payload and the
analysis payload under that single (key, iv) pair, producing two
ciphertexts with two authentication tags. -/
def createSignature {CP A : Type} (C : AeadCipher) (SC : Serializer CP) (SA : Serializer A)
    (entropy : List Nat) (contractData : CP) (analysisData : A) :
    Except CryptoError SignatureData :=
  match encrypt C SC contractData (generateKey entropy) (generateIV (entropy.drop 32)),
      encrypt C SA analysisData (generateKey entropy) (generateIV (entropy.drop 32)) with
  | .ok ec, .ok ea =>
      .ok { key := generateKey entropy, iv := generateIV (entropy.drop 32),
            encryptedContent := ec.encrypted, contentTag := ec.tag,
            encryptedAnalysis := ea.encrypted, analysisTag := ea.tag }
  | .error e, _ => .error e
  | _, .error e => .error e

/-! ### Round-trip of encrypt and decrypt -/

theorem validBytes_take (l : List Nat) (n : Nat) (hv : ValidBytes l) :
    ValidBytes (l.take n) :=
  fun b hb => hv b (List.take_subset n l hb)

theorem validBytes_drop (l : List Nat) (n : Nat) (hv : ValidBytes l) :
    ValidBytes (l.drop n) :=
  fun b hb => hv b (List.drop_subset n l hb)

theorem zipWith_xor_length (p k : List Nat) :
    (List.zipWith (fun x y => x ^^^ y) p k).length = min p.length k.length := by
  simp

/-- Claim C4: for every payload p and every freshly generated (key, iv)
pair — 32 random key bytes and 16 random iv bytes, base64 encoded as the
generator does — decrypting the output of encrypt with the returned auth
tag yields exactly p, for every AEAD cipher instance and every correct
serializer. -/
theorem encrypt_decrypt_roundtrip {A : Type} (C : AeadCipher) (S : Serializer A) (p : A)
    (kb ivb : List Nat) (hkl : kb.length = 32) (hkv : ValidBytes kb)
    (hivl : ivb.length = 16) (hivv : ValidBytes ivb) :
    ∃ r, encrypt C S p (b64encodeChars kb) (b64encodeChars ivb) = .ok r ∧
      decrypt C S r.encrypted (b64encodeChars kb) (b64encodeChars ivb) r.tag = .ok p := by
  have hk : b64decodeChars (b64encodeChars kb) = kb := b64decode_b64encode kb hkv
  have hiv : b64decodeChars (b64encodeChars ivb) = ivb := b64decode_b64encode ivb hivv
  have hpt := S.ser_valid p
  have hks := C.ks_valid kb ivb (S.ser p).length
  have hct : ValidBytes (List.zipWith (fun x y => x ^^^ y) (S.ser p) (C.ks kb ivb (S.ser p).length)) :=
    validBytes_zipWith_xor _ _ hpt hks
  have hctlen : (List.zipWith (fun x y => x ^^^ y) (S.ser p) (C.ks kb ivb (S.ser p).length)).length
      = (S.ser p).length := by
    rw [zipWith_xor_length, C.ks_len]
    omega
  refine ⟨EncResult.mk
    (hexEncodeChars (List.zipWith (fun x y => x ^^^ y) (S.ser p) (C.ks kb ivb (S.ser p).length)))
    (hexEncodeChars (C.tagOf kb ivb aadBytes
      (List.zipWith (fun x y => x ^^^ y) (S.ser p) (C.ks kb ivb (S.ser p).length)))), ?_, ?_⟩
  · unfold encrypt
    rw [hk, hiv, hkl, hivl]
    simp
  · unfold decrypt
    rw [hk, hiv, hkl, hivl]
    simp only [if_neg (by omega : ¬ (32 ≠ 32)), if_neg (by omega : ¬ (16 = 0))]
    rw [hexDecode_hexEncode _ hct, hexDecode_hexEncode _ (C.tag_valid kb ivb aadBytes _)]
    rw [if_neg (by intro h; exact h rfl)]
    rw [hctlen, zipWith_xor_cancel _ _ (by rw [C.ks_len])]
    rw [S.round]

/-- Successful encrypt in closed form: with a 32-byte key and a nonempty iv,
encrypt returns the XOR-keystream ciphertext and the tag, hex encoded. -/
theorem encrypt_eq_ok {A : Type} (C : AeadCipher) (S : Serializer A) (data : A)
    (kb ivb : List Nat) (hkl : kb.length = 32) (hkv : ValidBytes kb)
    (hivl : ivb.length ≠ 0) (hivv : ValidBytes ivb) :
    encrypt C S data (b64encodeChars kb) (b64encodeChars ivb) = .ok
      { encrypted := hexEncodeChars (List.zipWith (fun x y => x ^^^ y) (S.ser data)
          (C.ks kb ivb (S.ser data).length)),
        tag := hexEncodeChars (C.tagOf kb ivb aadBytes
          (List.zipWith (fun x y => x ^^^ y) (S.ser data) (C.ks kb ivb (S.ser data).length))) } := by
  unfold encrypt
  rw [b64decode_b64encode kb hkv, b64decode_b64encode ivb hivv]
  simp [hkl, hivl]

/-- Successful createSignature in closed form: both payloads are sealed
under the single key and iv drawn from the entropy stream. -/
theorem createSignature_eq {CP A : Type} (C : AeadCipher) (SC : Serializer CP)
    (SA : Serializer A) (entropy : List Nat) (cd : CP) (ad : A)
    (hv : ValidBytes entropy) (hlen : 48 ≤ entropy.length) :
    ∃ ec ea, encrypt C SC cd (generateKey entropy) (generateIV (entropy.drop 32)) = .ok ec ∧
      encrypt C SA ad (generateKey entropy) (generateIV (entropy.drop 32)) = .ok ea ∧
      createSignature C SC SA entropy cd ad = .ok
        { key := generateKey entropy, iv := generateIV (entropy.drop 32),
          encryptedContent := ec.encrypted, contentTag := ec.tag,
          encryptedAnalysis := ea.encrypted, analysisTag := ea.tag } := by
  have hkl : (entropy.take 32).length = 32 := by
    rw [List.length_take]
    omega
  have hivl : ((entropy.drop 32).take 16).length ≠ 0 := by
    rw [List.length_take, List.length_drop]
    omega
  have hkv := validBytes_take entropy 32 hv
  have hivv := validBytes_take (entropy.drop 32) 16 (validBytes_drop entropy 32 hv)
  have h1 := encrypt_eq_ok C SC cd (entropy.take 32) ((entropy.drop 32).take 16) hkl hkv hivl hivv
  have h2 := encrypt_eq_ok C SA ad (entropy.take 32) ((entropy.drop 32).take 16) hkl hkv hivl hivv
  refine ⟨_, _, h1, h2, ?_⟩
  unfold createSignature generateKey generateIV
  rw [h1, h2]

/-- Base64 encoding is injective on byte lists (needed for key freshness). -/
theorem b64encode_inj (l1 l2 : List Nat) (h1 : ValidBytes l1) (h2 : ValidBytes l2)
    (he : b64encodeChars l1 = b64encodeChars l2) : l1 = l2 := by
  rw [← b64decode_b64encode l1 h1, ← b64decode_b64encode l2 h2, he]

/-! ### The contract signature collection

The collection is a list of documents.  Fidelity notes, tied to
contractSignature.models.js: the fileHash field is declared with
unique true, which creates a database-level unique index on fileHash
ALONE, spanning every status; the compound index on (fileHash, uploadedBy)
declared below it is not unique.  incrementAccess adds one to the loaded
document field and saves the resulting absolute value back by _id. -/

inductive RecordStatus where
  | active
  | archived
  | deleted
deriving DecidableEq

structure ContractRecord where
  id : Nat
  fileHash : String
  fileName : String
  fileSize : Nat
  fileType : String
  uploadedBy : Nat
  encryptedContent : List Char
  encryptedAnalysis : List Char
  encryptionKey : List Char
  iv : List Char
  contentTag : List Char
  analysisTag : List Char
  analysisDate : Nat
  analysisVersion : String
  accessCount : Nat
  lastAccessed : Nat
  status : RecordStatus
deriving DecidableEq

abbrev ContractDB := List ContractRecord

inductive DbError where
  | duplicateKey
deriving DecidableEq

/-- Insert under the schema unique index on fileHash alone: the insert is
rejected with a duplicate key error whenever any existing document — of
any uploader and any status — has the same fileHash. -/
def insertRecord (db : ContractDB) (r : ContractRecord) : Except DbError ContractDB :=
  if db.any (fun x => x.fileHash == r.fileHash) then .error .duplicateKey
  else .ok (db ++ [r])

/-- The findOne on fileHash, uploadedBy and status active used by the
analyze and check-duplicate handlers. -/
def findActiveContract (db : ContractDB) (fileHash : String) (uploaderId : Nat) :
    Option ContractRecord :=
  db.find? (fun r => r.fileHash == fileHash && r.uploadedBy == uploaderId
    && r.status == RecordStatus.active)

/-- A mongoose save of a loaded document writes it back by _id. -/
def replaceById (db : ContractDB) (id : Nat) (r : ContractRecord) : ContractDB :=
  db.map (fun x => if x.id == id then r else x)

/-- incrementAccess: an application-level read-modify-write.  The caller
holds a loaded snapshot; the method adds one to the snapshot field, stamps
lastAccessed, and saves the resulting absolute values back by _id.  There
is no storage-level atomic increment operation here. -/
def incrementAccess (snapshot : ContractRecord) (now : Nat) (db : ContractDB) :
    ContractRecord × ContractDB :=
  ({ snapshot with accessCount := snapshot.accessCount + 1, lastAccessed := now },
   replaceById db snapshot.id
     { snapshot with accessCount := snapshot.accessCount + 1, lastAccessed := now })

/-- getDecryptedAnalysis: unseal encryptedAnalysis with the record key, iv
and analysisTag; every failure surfaces as a decryption error. -/
def getDecryptedAnalysis {A : Type} (C : AeadCipher) (SA : Serializer A)
    (r : ContractRecord) : Except CryptoError A :=
  decrypt C SA r.encryptedAnalysis r.encryptionKey r.iv r.analysisTag

/-- getDecryptedContent: unseal encryptedContent with the record key, iv
and contentTag. -/
def getDecryptedContent {CP : Type} (C : AeadCipher) (SC : Serializer CP)
    (r : ContractRecord) : Except CryptoError CP :=
  decrypt C SC r.encryptedContent r.encryptionKey r.iv r.contentTag

/-! ### The analyze and check-duplicate handlers -/

/-- The contract-content payload sealed into encryptedContent. -/
structure ContentPayload where
  fileName : String
  fileSize : Nat
  fileType : String
  uploadDate : Nat
  extractedText : String
deriving DecidableEq

/-- An uploaded file as the handler sees it after multer staging.  bytes
are the staged file contents on disk, which the analyze handler reads back
with fs.readFileSync.  buffer is the in-memory req.file.buffer field: the
repository's only multer instance uses diskStorage, which never populates
buffer, so under this staging it is always none (memoryStorage would make
it some of the bytes). -/
structure FileUpload where
  bytes : List Nat
  buffer : Option (List Nat)
  originalname : String
  size : Nat
  mimetype : String
deriving DecidableEq

/-- Result of the local analyzer bridge: the parsed analysis (possibly
absent — the handler checks result.analysis) and the extracted text. -/
structure AnalyzerOut (A : Type) where
  analysis : Option A
  extracted_text : String
deriving DecidableEq

/-- An error thrown during the analysis attempt.  response500 records
whether the error object carries an HTTP response with status 500, the
test in the inner catch.  Errors produced by the local spawn bridge, the
signature service and the database save are plain Error objects and never
carry one. -/
structure AnalysisError where
  response500 : Bool
deriving DecidableEq

/-- The JSON response of the handlers, restricted to the fields the claims
mention. -/
structure ApiResponse (A : Type) where
  status : Nat
  success : Bool
  message : String
  isDuplicate : Option Bool
  analysis : Option A
  extractedText : Option String
  contractId : Option Nat
  accessCount : Option Nat
deriving DecidableEq

/-- The generic 500 failure emitted by the outer catch handlers. -/
def errorResponse (A : Type) (msg : String) : ApiResponse A :=
  { status := 500, success := false, message := msg, isDuplicate := none,
    analysis := none, extractedText := none, contractId := none, accessCount := none }

/-- The 200 cache-hit response of the analyze handler. -/
def dupResponse {A : Type} (analysis : A) (etext : String) (cid cnt : Nat) : ApiResponse A :=
  { status := 200, success := true,
    message := "Contract already analyzed. Returning previous analysis.",
    isDuplicate := some true, analysis := some analysis, extractedText := some etext,
    contractId := some cid, accessCount := some cnt }

/-- The 200 fresh-analysis response of the analyze handler. -/
def freshResponse {A : Type} (analysis : A) (etext : String) (cid : Nat) : ApiResponse A :=
  { status := 200, success := true,
    message := "Contract analyzed and stored successfully",
    isDuplicate := some false, analysis := some analysis, extractedText := some etext,
    contractId := some cid, accessCount := none }

/-- The 500 response of the inner catch branch taken when the error object
carries a response with status 500. -/
def analysisFailedResponse (A : Type) : ApiResponse A :=
  { status := 500, success := false,
    message := "Contract analysis failed. Please try again.",
    isDuplicate := none, analysis := none, extractedText := none,
    contractId := none, accessCount := none }

/-- The 200 not-found response of the check-duplicate handler. -/
def notFoundResponse (A : Type) : ApiResponse A :=
  { status := 200, success := true,
    message := "Contract not found in database. Analysis required.",
    isDuplicate := some false, analysis := none, extractedText := none,
    contractId := none, accessCount := none }

/-- The 200 found response of the check-duplicate handler. -/
def foundResponse {A : Type} (analysis : A) (etext : String) (cid cnt : Nat) : ApiResponse A :=
  { status := 200, success := true, message := "",
    isDuplicate := some true, analysis := some analysis, extractedText := some etext,
    contractId := some cid, accessCount := some cnt }

/-- Everything an analyze request leaves behind: the HTTP response, the
collection state, whether the external analyzer ran, and whether the
staged upload file was deleted. -/
structure AnalyzeOutcome (A : Type) where
  response : ApiResponse A
  db : ContractDB
  analyzerInvoked : Bool
  uploadDeleted : Bool
deriving DecidableEq

/-- The pure collaborators of the handlers: generateFileHash (the SHA-256
content hash, an external primitive abstracted as a function of the raw
bytes), the AEAD cipher and the two payload serializers. -/
structure AnalyzeCtx (A : Type) where
  hash : List Nat → String
  C : AeadCipher
  SC : Serializer ContentPayload
  SA : Serializer A

/-- The analyze handler.  dbCheck is the collection state observed by the
initial findOne; dbSave is the state the write round trips run against.
The two differ exactly when a concurrent request commits between the check
and the write; analyze below is the sequential diagonal.  The flow mirrors
router.post analyze: duplicate check; on a hit delete the staged file,
incrementAccess, decrypt and answer 200 with isDuplicate true; on a miss
run the analyzer, createSignature, then save the new document under the
unique index.  The catch structure of the source is kept: the inner catch
returns 500 without deleting the staged file when the error carries a
response with status 500, otherwise it cleans up and rethrows, and the
outer catch answers a generic 500. -/
def mkContractRecord (newId : Nat) (fileHash : String) (file : FileUpload)
    (userId now : Nat) (sig : SignatureData) : ContractRecord :=
  { id := newId, fileHash := fileHash,
    fileName := file.originalname, fileSize := file.size, fileType := file.mimetype,
    uploadedBy := userId,
    encryptedContent := sig.encryptedContent, encryptedAnalysis := sig.encryptedAnalysis,
    encryptionKey := sig.key, iv := sig.iv,
    contentTag := sig.contentTag, analysisTag := sig.analysisTag,
    analysisDate := now, analysisVersion := "1.0",
    accessCount := 0, lastAccessed := now, status := RecordStatus.active }

def analyzeRacy {A : Type} (ctx : AnalyzeCtx A)
    (analyzer : List Nat → Except AnalysisError (AnalyzerOut A))
    (entropy : List Nat) (now : Nat) (newId : Nat)
    (dbCheck dbSave : ContractDB) (userId : Nat) (file : FileUpload) :
    AnalyzeOutcome A :=
  match findActiveContract dbCheck (ctx.hash file.bytes) userId with
  | some existingContract =>
      match incrementAccess existingContract now dbSave with
      | (rec2, db2) =>
          match getDecryptedAnalysis ctx.C ctx.SA rec2, getDecryptedContent ctx.C ctx.SC rec2 with
          | .ok analysis, .ok content =>
              { response := dupResponse analysis content.extractedText rec2.id rec2.accessCount,
                db := db2, analyzerInvoked := false, uploadDeleted := true }
          | _, _ =>
              { response := errorResponse A "Failed to analyze contract",
                db := db2, analyzerInvoked := false, uploadDeleted := true }
  | none =>
      match analyzer file.bytes with
      | .error e =>
          if e.response500 then
            { response := analysisFailedResponse A,
              db := dbSave, analyzerInvoked := true, uploadDeleted := false }
          else
            { response := errorResponse A "Failed to analyze contract",
              db := dbSave, analyzerInvoked := true, uploadDeleted := true }
      | .ok out =>
          match out.analysis with
          | none =>
              { response := errorResponse A "Failed to analyze contract",
                db := dbSave, analyzerInvoked := true, uploadDeleted := true }
          | some analysis =>
              match createSignature ctx.C ctx.SC ctx.SA entropy
                  { fileName := file.originalname, fileSize := file.size,
                    fileType := file.mimetype, uploadDate := now,
                    extractedText := out.extracted_text } analysis with
              | .error _ =>
                  { response := errorResponse A "Failed to analyze contract",
                    db := dbSave, analyzerInvoked := true, uploadDeleted := true }
              | .ok sig =>
                  match insertRecord dbSave
                      (mkContractRecord newId (ctx.hash file.bytes) file userId now sig) with
                  | .error _ =>
                      { response := errorResponse A "Failed to analyze contract",
                        db := dbSave, analyzerInvoked := true, uploadDeleted := true }
                  | .ok db2 =>
                      { response := freshResponse analysis out.extracted_text newId,
                        db := db2, analyzerInvoked := true, uploadDeleted := true }

/-- The sequential analyze handler: the check and the write observe the
same collection state. -/
def analyze {A : Type} (ctx : AnalyzeCtx A)
    (analyzer : List Nat → Except AnalysisError (AnalyzerOut A))
    (entropy : List Nat) (now : Nat) (newId : Nat)
    (db : ContractDB) (userId : Nat) (file : FileUpload) : AnalyzeOutcome A :=
  analyzeRacy ctx analyzer entropy now newId db db userId file

/-- The check-duplicate handler.  It hashes req.file.buffer — not the
staged file on disk — so when the buffer is absent (as it always is under
the repository's disk-storage multer) generateFileHash throws on the
undefined argument and the catch answers the generic 500 failure.  With a
buffer present it does findOne on (fileHash, uploadedBy, active), decrypts
and answers.  On no path does it call incrementAccess or write. -/
def checkDuplicate {A : Type} (ctx : AnalyzeCtx A) (db : ContractDB) (userId : Nat)
    (file : FileUpload) : ApiResponse A × ContractDB :=
  match file.buffer with
  | none => (errorResponse A "Failed to check for duplicate contract", db)
  | some buf =>
  match findActiveContract db (ctx.hash buf) userId with
  | some existingContract =>
      match getDecryptedAnalysis ctx.C ctx.SA existingContract,
          getDecryptedContent ctx.C ctx.SC existingContract with
      | .ok analysis, .ok content =>
          (foundResponse analysis content.extractedText existingContract.id
            existingContract.accessCount, db)
      | _, _ => (errorResponse A "Failed to check for duplicate contract", db)
  | none => (notFoundResponse A, db)

/-! ### General theorems about the handlers -/

/-- Claim C6: whenever an active record for (fileHash, uploaderId) already
exists and its payloads decrypt, the analyze handler answers the cache-hit
response tagged isDuplicate true carrying the decrypted analysis and
content, bumps exactly accessCount (by one) and lastAccessed in the store,
and never invokes the external analyzer. -/
theorem analyze_cache_hit {A : Type} (ctx : AnalyzeCtx A)
    (analyzer : List Nat → Except AnalysisError (AnalyzerOut A))
    (entropy : List Nat) (now newId : Nat) (db : ContractDB) (userId : Nat)
    (file : FileUpload) (rec : ContractRecord) (a : A) (c : ContentPayload)
    (hfind : findActiveContract db (ctx.hash file.bytes) userId = some rec)
    (ha : getDecryptedAnalysis ctx.C ctx.SA rec = .ok a)
    (hc : getDecryptedContent ctx.C ctx.SC rec = .ok c) :
    analyze ctx analyzer entropy now newId db userId file =
      { response := dupResponse a c.extractedText rec.id (rec.accessCount + 1),
        db := replaceById db rec.id
          { rec with accessCount := rec.accessCount + 1, lastAccessed := now },
        analyzerInvoked := false, uploadDeleted := true } := by
  have ha2 : getDecryptedAnalysis ctx.C ctx.SA
      { rec with accessCount := rec.accessCount + 1, lastAccessed := now } = .ok a := by
    unfold getDecryptedAnalysis at ha ⊢
    simpa using ha
  have hc2 : getDecryptedContent ctx.C ctx.SC
      { rec with accessCount := rec.accessCount + 1, lastAccessed := now } = .ok c := by
    unfold getDecryptedContent at hc ⊢
    simpa using hc
  unfold analyze analyzeRacy incrementAccess
  rw [hfind]
  simp [ha2, hc2]

/-- Claim C8: when the duplicate check misses and the analyzer fails with a
plain error (every error the local analyzer bridge, the signature service
or the save can throw is plain — none carries an HTTP response), no record
is created (the store is unchanged), the staged upload file is deleted, and
the caller receives the 500 analysis-failure response. -/
theorem analyze_analysis_failure {A : Type} (ctx : AnalyzeCtx A)
    (analyzer : List Nat → Except AnalysisError (AnalyzerOut A))
    (entropy : List Nat) (now newId : Nat) (db : ContractDB) (userId : Nat)
    (file : FileUpload) (e : AnalysisError)
    (hmiss : findActiveContract db (ctx.hash file.bytes) userId = none)
    (hfail : analyzer file.bytes = .error e)
    (hplain : e.response500 = false) :
    analyze ctx analyzer entropy now newId db userId file =
      { response := errorResponse A "Failed to analyze contract",
        db := db, analyzerInvoked := true, uploadDeleted := true } := by
  unfold analyze analyzeRacy
  rw [hmiss, hfail]
  simp [hplain]

/-- The check-duplicate handler never writes: whatever path it takes —
missing buffer, miss, decrypt failure or hit — the store it returns is the
store it was given. -/
theorem checkDuplicate_frame {A : Type} (ctx : AnalyzeCtx A) (db : ContractDB)
    (userId : Nat) (file : FileUpload) :
    (checkDuplicate ctx db userId file).2 = db := by
  unfold checkDuplicate
  split
  · rfl
  · split
    · split <;> rfl
    · rfl

/-- Claim C3 (amended): when the save races a record committed by a
concurrent request for the same fileHash, the duplicate-key rejection is
not recovered by a re-query; it propagates to the outer catch, which
answers the generic 500 failure, and the store keeps only the winner
record. -/
theorem analyze_dupkey_propagates {A : Type} (ctx : AnalyzeCtx A)
    (analyzer : List Nat → Except AnalysisError (AnalyzerOut A))
    (entropy : List Nat) (now newId : Nat) (dbCheck dbSave : ContractDB)
    (userId : Nat) (file : FileUpload) (out : AnalyzerOut A) (a : A)
    (hmiss : findActiveContract dbCheck (ctx.hash file.bytes) userId = none)
    (hok : analyzer file.bytes = .ok out) (hsome : out.analysis = some a)
    (hv : ValidBytes entropy) (hlen : 48 ≤ entropy.length)
    (hconf : dbSave.any (fun x => x.fileHash == ctx.hash file.bytes) = true) :
    analyzeRacy ctx analyzer entropy now newId dbCheck dbSave userId file =
      { response := errorResponse A "Failed to analyze contract",
        db := dbSave, analyzerInvoked := true, uploadDeleted := true } := by
  obtain ⟨ec, ea, h1, h2, hcs⟩ := createSignature_eq ctx.C ctx.SC ctx.SA entropy
    { fileName := file.originalname, fileSize := file.size, fileType := file.mimetype,
      uploadDate := now, extractedText := out.extracted_text } a hv hlen
  have hins : ∀ sig : SignatureData, insertRecord dbSave
      (mkContractRecord newId (ctx.hash file.bytes) file userId now sig) = .error .duplicateKey := by
    intro sig
    unfold insertRecord mkContractRecord
    simp [hconf]
  unfold analyzeRacy
  rw [hmiss, hok]
  simp [hsome, hcs, hins]

/-- Claim C9: a created signature seals both payloads under the one key and
one iv freshly drawn from the secure random source for this record, with
two per-payload tags; the key and iv are functions of that entropy alone
(the same draws give the same key and iv whatever the payloads are, so
they are never derived from user-supplied data or passwords), and distinct
draws give distinct keys (no reuse across records). -/
theorem createSignature_key_policy {CP A : Type} (C : AeadCipher) (SC : Serializer CP)
    (SA : Serializer A) (entropy : List Nat) (cd : CP) (ad : A)
    (hv : ValidBytes entropy) (hlen : 48 ≤ entropy.length) :
    ∃ sig ec ea,
      createSignature C SC SA entropy cd ad = .ok sig ∧
      sig.key = b64encodeChars (entropy.take 32) ∧
      sig.iv = b64encodeChars ((entropy.drop 32).take 16) ∧
      encrypt C SC cd sig.key sig.iv = .ok ec ∧
      sig.encryptedContent = ec.encrypted ∧ sig.contentTag = ec.tag ∧
      encrypt C SA ad sig.key sig.iv = .ok ea ∧
      sig.encryptedAnalysis = ea.encrypted ∧ sig.analysisTag = ea.tag ∧
      (∀ (cd2 : CP) (ad2 : A) (sig2 : SignatureData),
        createSignature C SC SA entropy cd2 ad2 = .ok sig2 →
        sig2.key = sig.key ∧ sig2.iv = sig.iv) ∧
      (∀ entropy2, ValidBytes entropy2 → 48 ≤ entropy2.length →
        entropy2.take 32 ≠ entropy.take 32 →
        ∀ (cd2 : CP) (ad2 : A) (sig2 : SignatureData),
          createSignature C SC SA entropy2 cd2 ad2 = .ok sig2 → sig2.key ≠ sig.key) := by
  obtain ⟨ec, ea, h1, h2, hcs⟩ := createSignature_eq C SC SA entropy cd ad hv hlen
  refine ⟨_, ec, ea, hcs, rfl, rfl, h1, rfl, rfl, h2, rfl, rfl, ?_, ?_⟩
  · intro cd2 ad2 sig2 hsig2
    obtain ⟨ec2, ea2, _, _, hcs2⟩ := createSignature_eq C SC SA entropy cd2 ad2 hv hlen
    have hE := hsig2.symm.trans hcs2
    injection hE with h
    rw [h]
    exact ⟨rfl, rfl⟩
  · intro e2 hv2 hlen2 hne cd2 ad2 sig2 hsig2
    obtain ⟨ec2, ea2, _, _, hcs2⟩ := createSignature_eq C SC SA e2 cd2 ad2 hv2 hlen2
    have hE := hsig2.symm.trans hcs2
    injection hE with h
    rw [h]
    intro hkeq
    unfold generateKey at hkeq
    exact hne (b64encode_inj _ _ (validBytes_take e2 32 hv2) (validBytes_take entropy 32 hv) hkeq)

/-- The deterministic fragment of tamper rejection in decrypt: whenever the
supplied tag differs from the tag recomputed over the (possibly altered)
ciphertext, decrypt fails closed with a decryption error and returns no
data.  Whether an altered ciphertext or a different key can reproduce the
stored tag is the probabilistic authenticity guarantee of the external
AES-GCM primitive, outside this embedding. -/
theorem decrypt_wrong_tag_fails {A : Type} (C : AeadCipher) (S : Serializer A)
    (encryptedData key iv tag : List Char)
    (hk : (b64decodeChars key).length = 32)
    (hiv : (b64decodeChars iv).length ≠ 0)
    (hne : hexDecodeChars tag ≠ C.tagOf (b64decodeChars key) (b64decodeChars iv) aadBytes
      (hexDecodeChars encryptedData)) :
    decrypt C S encryptedData key iv tag = .error .decryptionFailed := by
  unfold decrypt
  simp [hk, hiv, hne]

/-! ### Concrete collaborator instances for the closed evaluations

A concrete cipher, hash function and serializers used by the closed
counterexample, failing-input and witness theorems.  The serializers use a
self-delimiting byte encoding with a verified parser. -/

theorem validBytes_append (l1 l2 : List Nat) (h1 : ValidBytes l1) (h2 : ValidBytes l2) :
    ValidBytes (l1 ++ l2) := by
  intro b hb
  rcases List.mem_append.mp hb with h | h
  · exact h1 b h
  · exact h2 b h

/-- Self-delimiting unary encoding of a natural number. -/
def encUnary (n : Nat) : List Nat := List.replicate n 0 ++ [1]

/-- Parser for the unary encoding; returns the value and the rest. -/
def decUnary : List Nat → Option (Nat × List Nat)
  | 0 :: rest =>
      match decUnary rest with
      | some (n, r) => some (n + 1, r)
      | none => none
  | 1 :: rest => some (0, rest)
  | _ => none

theorem decUnary_encUnary : ∀ (n : Nat) (rest : List Nat),
    decUnary (encUnary n ++ rest) = some (n, rest)
  | 0, rest => rfl
  | n + 1, rest => by
    show decUnary (0 :: (encUnary n ++ rest)) = some (n + 1, rest)
    simp [decUnary, decUnary_encUnary n rest]

theorem validBytes_encUnary (n : Nat) : ValidBytes (encUnary n) := by
  intro b hb
  unfold encUnary at hb
  rcases List.mem_append.mp hb with h | h
  · rw [List.eq_of_mem_replicate h]
    omega
  · simp at h
    omega

/-- Self-delimiting encoding of a character via its code point. -/
def encChar (c : Char) : List Nat := encUnary c.toNat

def decChar (l : List Nat) : Option (Char × List Nat) :=
  match decUnary l with
  | some (n, r) => some (Char.ofNat n, r)
  | none => none

theorem decChar_encChar (c : Char) (rest : List Nat) :
    decChar (encChar c ++ rest) = some (c, rest) := by
  unfold decChar encChar
  rw [decUnary_encUnary]
  simp [Char.ofNat_toNat]

/-- Concatenated character encodings. -/
def encCharsBody : List Char → List Nat
  | [] => []
  | c :: cs => encChar c ++ encCharsBody cs

/-- Parse a known number of characters. -/
def decChars : Nat → List Nat → Option (List Char × List Nat)
  | 0, rest => some ([], rest)
  | n + 1, rest =>
      match decChar rest with
      | some (c, r2) =>
          match decChars n r2 with
          | some (cs, r3) => some (c :: cs, r3)
          | none => none
      | none => none

theorem decChars_encCharsBody : ∀ (l : List Char) (rest : List Nat),
    decChars l.length (encCharsBody l ++ rest) = some (l, rest)
  | [], rest => rfl
  | c :: cs, rest => by
    show decChars (cs.length + 1) ((encChar c ++ encCharsBody cs) ++ rest) = some (c :: cs, rest)
    rw [List.append_assoc]
    simp [decChars, decChar_encChar, decChars_encCharsBody cs rest]

theorem validBytes_encCharsBody : ∀ l : List Char, ValidBytes (encCharsBody l)
  | [] => by intro b hb; simp [encCharsBody] at hb
  | c :: cs =>
      validBytes_append _ _ (validBytes_encUnary c.toNat) (validBytes_encCharsBody cs)

/-- Self-delimiting encoding of a string: length then the characters. -/
def encString (s : String) : List Nat := encUnary s.data.length ++ encCharsBody s.data

def decString (l : List Nat) : Option (String × List Nat) :=
  match decUnary l with
  | some (n, r) =>
      match decChars n r with
      | some (cs, r2) => some (String.mk cs, r2)
      | none => none
  | none => none

theorem string_mk_data (s : String) : String.mk s.data = s := by
  cases s
  rfl

theorem decString_encString (s : String) (rest : List Nat) :
    decString (encString s ++ rest) = some (s, rest) := by
  unfold decString encString
  rw [List.append_assoc, decUnary_encUnary]
  simp only [decChars_encCharsBody, string_mk_data]

theorem validBytes_encString (s : String) : ValidBytes (encString s) :=
  validBytes_append _ _ (validBytes_encUnary s.data.length) (validBytes_encCharsBody s.data)

/-- A concrete analysis-payload serializer over Nat. -/
def serNatW : Serializer Nat where
  ser := fun n => encUnary n
  deser := fun l =>
    match decUnary l with
    | some (n, []) => some n
    | _ => none
  ser_valid := fun n => validBytes_encUnary n
  round := by
    intro n
    show (match decUnary (encUnary n) with | some (n, []) => some n | _ => none) = some n
    have h := decUnary_encUnary n []
    rw [List.append_nil] at h
    rw [h]

/-- A concrete content-payload serializer: the five fields in order, each
self-delimiting. -/
def serContentW : Serializer ContentPayload where
  ser := fun p => encString p.fileName ++ (encUnary p.fileSize ++ (encString p.fileType
    ++ (encUnary p.uploadDate ++ encString p.extractedText)))
  deser := fun l =>
    match decString l with
    | some (fn, r1) =>
        match decUnary r1 with
        | some (fs, r2) =>
            match decString r2 with
            | some (ft, r3) =>
                match decUnary r3 with
                | some (ud, r4) =>
                    match decString r4 with
                    | some (et, []) => some (ContentPayload.mk fn fs ft ud et)
                    | _ => none
                | none => none
            | none => none
        | none => none
    | none => none
  ser_valid := fun p =>
    validBytes_append _ _ (validBytes_encString p.fileName)
      (validBytes_append _ _ (validBytes_encUnary p.fileSize)
        (validBytes_append _ _ (validBytes_encString p.fileType)
          (validBytes_append _ _ (validBytes_encUnary p.uploadDate)
            (validBytes_encString p.extractedText))))
  round := by
    intro p
    have h5 := decString_encString p.extractedText []
    rw [List.append_nil] at h5
    simp only [decString_encString, decUnary_encUnary, h5]

/-- A concrete AEAD instance for the closed evaluations: a constant
keystream and a constant tag. -/
def cipherW : AeadCipher where
  ks := fun _ _ n => List.replicate n 170
  tagOf := fun _ _ _ _ => List.replicate 16 9
  ks_len := by
    intro k iv n
    simp
  ks_valid := by
    intro k iv n b hb
    rw [List.eq_of_mem_replicate hb]
    omega
  tag_len := by
    intro k iv a c
    simp
  tag_valid := by
    intro k iv a c b hb
    rw [List.eq_of_mem_replicate hb]
    omega

/-- A concrete content hash for the closed evaluations: the hex encoding
of the bytes (injective, so a collision-free stand-in for SHA-256). -/
def hashW : List Nat → String := fun bytes => (hexEncodeChars bytes).asString

/-- The concrete handler context. -/
def ctxW : AnalyzeCtx Nat :=
  { hash := hashW, C := cipherW, SC := serContentW, SA := serNatW }

/-- A concrete analyzer that succeeds with analysis 5 and text t. -/
def analyzerW : List Nat → Except AnalysisError (AnalyzerOut Nat) :=
  fun _ => .ok { analysis := some 5, extracted_text := "t" }

/-- A concrete analyzer that fails with a plain error (no HTTP response
attached, as for every error of the local spawn bridge). -/
def analyzerFailW : List Nat → Except AnalysisError (AnalyzerOut Nat) :=
  fun _ => .error { response500 := false }

/-- A concrete uploaded file, staged by the repository's disk-storage
multer: the bytes are on disk and req.file.buffer is not populated. -/
def fileW : FileUpload :=
  { bytes := [1, 2, 3], buffer := none, originalname := "a", size := 3, mimetype := "p" }

/-- Two distinct concrete entropy streams (fresh randomness per request). -/
def entropyW : List Nat := List.range 48

def entropyW2 : List Nat := (List.range 48).map (fun n => n + 100)

/-- The content payload the analyze handler builds for fileW at time 100. -/
def payloadW : ContentPayload :=
  { fileName := "a", fileSize := 3, fileType := "p", uploadDate := 100, extractedText := "t" }

/-- The signature the analyze handler creates for fileW from entropyW. -/
def sigW : SignatureData :=
  ((createSignature cipherW serContentW serNatW entropyW payloadW 5).toOption).getD
    { key := [], iv := [], encryptedContent := [], contentTag := [],
      encryptedAnalysis := [], analysisTag := [] }

/-- The record the analyze handler creates for fileW, uploader 7. -/
def recW : ContractRecord := mkContractRecord 1 (hashW fileW.bytes) fileW 7 100 sigW

/-- An archived record for the same bytes and uploader 7 (soft-deleted
prior upload). -/
def recArchivedW : ContractRecord :=
  { recW with id := 9, status := RecordStatus.archived }

/-- An active record for the same bytes and uploader 7, committed by a
concurrent racing request. -/
def recWinnerW : ContractRecord :=
  { recW with id := 3 }

deriving instance DecidableEq for Except

/-! ### Closed evaluations: failing inputs, counterexample, witnesses -/

set_option maxRecDepth 100000 in
/-- Claim C1 at its failing input: uploader 1 uploads (record created,
isDuplicate false); uploader 2 then uploads byte-identical content.  The
per-user findOne misses and the analyzer runs, but the save of the second
record is rejected by the database-level unique index on fileHash alone
(schema field unique true), so the request answers the generic 500 failure
and no second active record is created for uploader 2. -/
theorem analyze_cross_user_second_upload_fails :
    (analyze ctxW analyzerW entropyW 100 1 [] 1 fileW).response.isDuplicate = some false ∧
    (analyze ctxW analyzerW entropyW 100 1 [] 1 fileW).db.length = 1 ∧
    analyze ctxW analyzerW entropyW2 101 2
        (analyze ctxW analyzerW entropyW 100 1 [] 1 fileW).db 2 fileW =
      { response := errorResponse Nat "Failed to analyze contract",
        db := (analyze ctxW analyzerW entropyW 100 1 [] 1 fileW).db,
        analyzerInvoked := true, uploadDeleted := true } := by
  decide

set_option maxRecDepth 100000 in
/-- Claim C2 at its failing input: uploader 7 owns only an archived record
for these bytes.  The findOne restricted to status active misses (the
soft-deleted record is not reused), but the insert of the new active
record is rejected by the unique index on fileHash, which also spans
archived documents; the request answers 500 and no new record is
created. -/
theorem analyze_after_archive_fails :
    findActiveContract [recArchivedW] (ctxW.hash fileW.bytes) 7 = none ∧
    analyze ctxW analyzerW entropyW 100 1 [recArchivedW] 7 fileW =
      { response := errorResponse Nat "Failed to analyze contract",
        db := [recArchivedW], analyzerInvoked := true, uploadDeleted := true } := by
  decide

set_option maxRecDepth 100000 in
/-- Claim C3 counterexample: a concurrent request committed an active
record for the same (fileHash, uploadedBy) compound key between the
duplicate check and the save.  The claim asserts the analyze operation
recovers locally and returns the winner record to the caller rather than
an error response; evaluated here, the handler instead answers the generic
500 failure with success false and returns no record. -/
theorem analyze_dupkey_no_recovery :
    (analyzeRacy ctxW analyzerW entropyW 100 1 [] [recWinnerW] 7 fileW).response.success = false ∧
    (analyzeRacy ctxW analyzerW entropyW 100 1 [] [recWinnerW] 7 fileW).response.status = 500 ∧
    (analyzeRacy ctxW analyzerW entropyW 100 1 [] [recWinnerW] 7 fileW).response.contractId = none := by
  decide

set_option maxRecDepth 100000 in
/-- Claim C7 at its failing input: two concurrent cache hits both load the
document snapshot with accessCount 0, then each runs incrementAccess — an
application-level read-modify-write followed by a save of the absolute
value.  Both writes store 1, so the final accessCount is 1, not the 2 that
a storage-layer atomic increment would guarantee. -/
theorem incrementAccess_lost_update :
    (incrementAccess recW 11 (incrementAccess recW 10 [recW]).2).2 =
      [{ recW with accessCount := 1, lastAccessed := 11 }] := by
  decide

/-- Witness for the round-trip theorem at concrete inputs. -/
theorem encrypt_decrypt_roundtrip_witness :
    ∃ r, encrypt cipherW serNatW 5 (b64encodeChars (List.replicate 32 7))
        (b64encodeChars (List.replicate 16 3)) = .ok r ∧
      decrypt cipherW serNatW r.encrypted (b64encodeChars (List.replicate 32 7))
        (b64encodeChars (List.replicate 16 3)) r.tag = .ok 5 :=
  encrypt_decrypt_roundtrip cipherW serNatW 5 (List.replicate 32 7) (List.replicate 16 3)
    (by decide) (by decide) (by decide) (by decide)

set_option maxRecDepth 100000 in
/-- Witness for the cache-hit theorem at concrete inputs. -/
theorem analyze_cache_hit_witness :
    analyze ctxW analyzerW entropyW2 101 2 [recW] 7 fileW =
      { response := dupResponse 5 payloadW.extractedText recW.id (recW.accessCount + 1),
        db := replaceById [recW] recW.id
          { recW with accessCount := recW.accessCount + 1, lastAccessed := 101 },
        analyzerInvoked := false, uploadDeleted := true } :=
  analyze_cache_hit ctxW analyzerW entropyW2 101 2 [recW] 7 fileW recW 5 payloadW
    (by decide) (by decide) (by decide)

set_option maxRecDepth 100000 in
/-- Witness for the analysis-failure theorem at concrete inputs. -/
theorem analyze_analysis_failure_witness :
    analyze ctxW analyzerFailW entropyW 100 1 [] 1 fileW =
      { response := errorResponse Nat "Failed to analyze contract",
        db := [], analyzerInvoked := true, uploadDeleted := true } :=
  analyze_analysis_failure ctxW analyzerFailW entropyW 100 1 [] 1 fileW
    { response500 := false } (by decide) (by decide) (by decide)

/-- Claim C10 at its failing input: a matching active record exists for
uploader 7 and an upload of the same bytes arrives through the
repository's disk-storage multer, so req.file.buffer is absent.  The
handler hashes that missing buffer, generateFileHash throws, and the catch
answers the generic 500 failure: the decrypted analysis and content are
never returned.  The store is indeed left entirely unmodified — but only
because the handler fails before reading the record. -/
theorem checkDuplicate_undefined_buffer_fails :
    checkDuplicate ctxW [recW] 7 fileW =
      (errorResponse Nat "Failed to check for duplicate contract", [recW]) := by
  rfl

set_option maxRecDepth 100000 in
/-- Witness for the duplicate-key propagation theorem at concrete inputs. -/
theorem analyze_dupkey_propagates_witness :
    analyzeRacy ctxW analyzerW entropyW 100 1 [] [recWinnerW] 7 fileW =
      { response := errorResponse Nat "Failed to analyze contract",
        db := [recWinnerW], analyzerInvoked := true, uploadDeleted := true } :=
  analyze_dupkey_propagates ctxW analyzerW entropyW 100 1 [] [recWinnerW] 7 fileW
    { analysis := some 5, extracted_text := "t" } 5
    (by decide) (by decide) (by decide) (by decide) (by decide) (by decide)

set_option maxRecDepth 100000 in
/-- Witness for the key-policy theorem at concrete inputs. -/
theorem createSignature_key_policy_witness :
    ∃ sig ec ea,
      createSignature cipherW serContentW serNatW entropyW payloadW 5 = .ok sig ∧
      sig.key = b64encodeChars (entropyW.take 32) ∧
      sig.iv = b64encodeChars ((entropyW.drop 32).take 16) ∧
      encrypt cipherW serContentW payloadW sig.key sig.iv = .ok ec ∧
      sig.encryptedContent = ec.encrypted ∧ sig.contentTag = ec.tag ∧
      encrypt cipherW serNatW 5 sig.key sig.iv = .ok ea ∧
      sig.encryptedAnalysis = ea.encrypted ∧ sig.analysisTag = ea.tag ∧
      (∀ (cd2 : ContentPayload) (ad2 : Nat) (sig2 : SignatureData),
        createSignature cipherW serContentW serNatW entropyW cd2 ad2 = .ok sig2 →
        sig2.key = sig.key ∧ sig2.iv = sig.iv) ∧
      (∀ entropy2, ValidBytes entropy2 → 48 ≤ entropy2.length →
        entropy2.take 32 ≠ entropyW.take 32 →
        ∀ (cd2 : ContentPayload) (ad2 : Nat) (sig2 : SignatureData),
          createSignature cipherW serContentW serNatW entropy2 cd2 ad2 = .ok sig2 →
          sig2.key ≠ sig.key) :=
  createSignature_key_policy cipherW serContentW serNatW entropyW payloadW 5
    (by decide) (by decide)

end JurisAI
